import Mathlib

/-! xtype: terminal rendering of the typing race (`interface.c`)

A shallow embedding of the rendering functions of `interface.c`
(`print_player_info`, `scroll_print`, `draw_running`, `draw`) and theorems
about the bar arithmetic, the scroll window and the leaderboard block.

Conventions of the embedding:

* the bytes written to `stdout` by one call are a `List Char`;
* a call that does not return normally (a failed `assert`, a division by
  zero, a read outside an array) is an `Except.error` carrying a `Fault`;
* the C `int` variables (`window_width`, `window_height`, `head`, `tail`,
  `offset`, `bar_length`, `mark_length`, the loop counters) are `Int`, with
  `/` of C rendered by `Int.tdiv` (truncation toward zero);
* the product and quotient of line 51 and the assignments to `int` of lines
  104-106 are reduced to 32 bits (`to_int`, `to_unsigned`): a product that
  leaves the range of its type wraps around, as two's complement hardware
  does; the sums and differences of geometry and offsets are modelled on the
  range where they do not overflow.
-/

namespace XType

/-- Ways in which a rendering call can fail to return normally. -/
inductive Fault where
  | assertion
  | divByZero
  | outOfBounds
deriving DecidableEq, Repr

/-- Modelled from the spec: `struct player_info` is declared in a header that
is not part of the sources at hand. It carries the display identifier (a C
string) and the position, an integer offset into the race text with
`0 ≤ position`. -/
structure player_info where
  id : List Char
  position : Nat
deriving DecidableEq, Repr

/-- Modelled from the spec: the values of the phase field `game_state`; the
constants `XTYPE_GAME_*` are declared in a header that is not part of the
sources at hand. `OTHER` stands for any value outside the four phases. -/
inductive game_state_t where
  | WAITING
  | RUNNING
  | READY
  | END
  | OTHER
deriving DecidableEq, Repr

/-- Modelled from the spec: `struct ifinfo_t` (the race snapshot) is declared
in a header that is not part of the sources at hand. Positions, sizes and the
elapsed duration are integers that are never negative, and they enter the
`int` arithmetic of the functions by their value; `infos` holds the
`infos_count` valid entries of the player array, `text_buffer` the bytes of
the allocated text buffer. -/
structure ifinfo_t where
  game_state : game_state_t
  me_ready : Bool
  duration : Nat
  position : Nat
  offset_buffer : Nat
  file_size : Nat
  text_size : Nat
  text_buffer : List Char
  infos : List player_info
deriving Repr

/-- The globals read by the rendering functions: `ifinfo`, the geometry
`window_height` / `window_width` (both `static int`), and two facts fixed in
a header that is not part of the sources at hand and therefore kept as
parameters: the constant `XTYPE_ID_LENGTH`, and `fields_unsigned`, which
tells whether the position and size fields are declared with an unsigned
32-bit type (`true`) or with the type `int` (`false`). -/
structure Globals where
  ifinfo : ifinfo_t
  window_height : Int
  window_width : Int
  XTYPE_ID_LENGTH : Nat
  fields_unsigned : Bool
deriving Repr

/-- Conversion of an integer value to the 32-bit type `int` (two's
complement): the result lies in `[-2^31, 2^31)` and differs from the value
by a multiple of `2^32`. -/
def to_int (x : Int) : Int := (x + 2147483648) % 4294967296 - 2147483648

/-- Conversion of an integer value to a 32-bit unsigned type: the value
modulo `2^32`. -/
def to_unsigned (x : Int) : Int := x % 4294967296

/-- Line 51 of `print_player_info`: the value stored in the `int` variable
`mark_length` by `bar_length * info.position / ifinfo.file_size`, for a
position and a file size that are values of their field type. With `int`
fields the product is an `int`; with unsigned fields `bar_length` is first
converted to unsigned and the product and quotient are unsigned. -/
def mark_length (fields_unsigned : Bool) (bar_length : Int) (position file_size : Nat) : Int :=
  if fields_unsigned then
    to_int (Int.tdiv (to_unsigned (to_unsigned bar_length * (position : Int)))
      (file_size : Int))
  else
    to_int (Int.tdiv (to_int (bar_length * (position : Int))) (file_size : Int))

/-- The field `infos_count`: number of valid entries of `infos`. -/
def ifinfo_t.infos_count (s : ifinfo_t) : Nat := s.infos.length

/-- Output of `for (i = lo; i < hi; i++) putchar (c);`. -/
def putchars (lo hi : Int) (c : Char) : List Char :=
  List.replicate (hi - lo).toNat c

/-- Lines 37-41 of `print_player_info`: `printf ("%s ", info.id)` followed by
the padding loop up to column `XTYPE_ID_LENGTH + 1`. -/
def player_head (g : Globals) (id : List Char) : List Char :=
  let printed := id ++ [' ']
  let head_length : Int := printed.length
  printed ++ putchars head_length (g.XTYPE_ID_LENGTH + 1) ' '

/-- Lines 42-56 of `print_player_info`: the bar written after the identifier
field, for a player at `position`. -/
def player_bar (g : Globals) (position : Nat) : Except Fault (List Char) :=
  let bar_length : Int := g.window_width - g.XTYPE_ID_LENGTH - 1
  if position ≥ g.ifinfo.file_size then
    if position = g.ifinfo.file_size then
      .ok (putchars 0 bar_length '*')
    else
      .error Fault.assertion
  else
    if g.ifinfo.file_size = 0 then
      .error Fault.divByZero
    else
      let mark_length : Int :=
        mark_length g.fields_unsigned bar_length position g.ifinfo.file_size
      .ok (putchars 0 mark_length '#' ++ putchars mark_length bar_length '-')

/-- The function `print_player_info`: identifier field, then the bar. -/
def print_player_info (g : Globals) (info : player_info) : Except Fault (List Char) :=
  match player_bar g info.position with
  | .ok bar => .ok (player_head g info.id ++ bar)
  | .error f => .error f

/-- Lines 64-82 of `scroll_print`: the pair `(head, tail)` computed from the
cursor `offset`, the text length `text_size` and the width `window_width`. -/
def scroll_window (offset text_size window_width : Int) : Int × Int :=
  if offset ≥ text_size ∨ offset < 0 then
    (0, 0)
  else
    let tail := offset + Int.tdiv window_width 2
    let tail := if tail > text_size then text_size else tail
    let head := tail - window_width
    if head < 0 then
      let tail := tail + -head
      let tail := if tail > text_size then text_size else tail
      (0, tail)
    else
      (head, tail)

/-- The condition of the `assert` on line 84 of `scroll_print`. -/
def scroll_assert (offset head tail : Int) : Bool :=
  (decide (offset ≥ head) && decide (offset < tail)) || decide (tail = head)

/-- Lines 86-87: `fwrite (&text_buffer[head], 1, tail - head, stdout)` when
`tail > head`; reading outside the buffer is a fault. -/
def text_slice (buf : List Char) (head tail : Int) : Except Fault (List Char) :=
  if tail > head then
    if 0 ≤ head ∧ tail ≤ (buf.length : Int) then
      .ok ((buf.drop head.toNat).take (tail - head).toNat)
    else
      .error Fault.outOfBounds
  else
    .ok []

/-- Lines 89-95: the marker line, one character for each `i` in
`[head, tail)`: `'|'` at `i = offset`, a space elsewhere. -/
def marker_line (offset head tail : Int) : List Char :=
  (List.range (tail - head).toNat).map
    (fun k => if head + (k : Int) ≠ offset then ' ' else '|')

/-- The cursor offset of `scroll_print` (line 63). -/
def cursor_offset (g : Globals) : Int :=
  (g.ifinfo.position : Int) - (g.ifinfo.offset_buffer : Int)

/-- The function `scroll_print`. -/
def scroll_print (g : Globals) : Except Fault (List Char) :=
  let offset := cursor_offset g
  let w := scroll_window offset g.ifinfo.text_size g.window_width
  if scroll_assert offset w.1 w.2 then
    match text_slice g.ifinfo.text_buffer w.1 w.2 with
    | .ok slice => .ok (slice ++ ['\n'] ++ marker_line offset w.1 w.2)
    | .error f => .error f
  else
    .error Fault.assertion

deriving instance DecidableEq for Except

/-- Sequencing of two output statements: the second runs only when the first
returned normally, and the bytes are written in order. -/
def andThen (a b : Except Fault (List Char)) : Except Fault (List Char) :=
  match a with
  | .error f => .error f
  | .ok x =>
    match b with
    | .error f => .error f
    | .ok y => .ok (x ++ y)

/-- Conversion `%d` of `printf`. -/
def printf_d (x : Int) : List Char :=
  if x < 0 then '-' :: Nat.toDigits 10 (-x).toNat else Nat.toDigits 10 x.toNat

/-- Conversion `%02d` of `printf`: zeros are inserted after the sign until the
field has two characters. -/
def printf_02d (x : Int) : List Char :=
  if x < 0 then '-' :: Nat.toDigits 10 (-x).toNat
  else if x < 10 then '0' :: Nat.toDigits 10 x.toNat
  else Nat.toDigits 10 x.toNat

/-- Lines 102-108 of `draw_running`: the time line. The duration is a value
of `time_t`; seconds, minutes and hours are stored in `int` variables. -/
def time_line (g : Globals) : List Char :=
  let cached_duration : Int := g.ifinfo.duration
  let seconds := to_int (Int.tmod cached_duration 60)
  let minutes := to_int (Int.tmod (Int.tdiv cached_duration 60) 60)
  let hours := to_int (Int.tdiv (Int.tdiv cached_duration 60) 60)
  printf_d hours ++ [':'] ++ printf_02d minutes ++ [':'] ++ printf_02d seconds ++ ['\n']

/-- Lines 112-116 of `draw_running`: the loop
`for (i = 0; i + 1 < window_height - 4 && i < infos_count; i++)`, entered at
counter `i` with `rest` the entries `infos[i], infos[i+1], ...` still to come. -/
def players_loop (g : Globals) : Nat → List player_info → Except Fault (List Char)
  | _, [] => .ok []
  | i, p :: rest =>
    if (i : Int) + 1 < g.window_height - 4 then
      andThen (andThen (print_player_info g p) (.ok ['\n'])) (players_loop g (i + 1) rest)
    else
      .ok []

/-- The array read `ifinfo.infos[k]`; an index outside `[0, infos_count)` is a
fault. -/
def infos_at (s : ifinfo_t) (k : Int) : Except Fault player_info :=
  if 0 ≤ k then
    match s.infos[k.toNat]? with
    | some p => .ok p
    | none => .error Fault.outOfBounds
  else
    .error Fault.outOfBounds

/-- Lines 117-130 of `draw_running`: blank padding, the one extra player line,
or the truncation marker. The padding loop
`for (i = infos_count; i + 1 < window_height - 3; i++)` runs while
`i < window_height - 4`. -/
def leaderboard_rest (g : Globals) : Except Fault (List Char) :=
  let n : Int := g.ifinfo.infos_count
  if n + 1 < g.window_height - 3 then
    .ok (putchars n (g.window_height - 3 - 1) '\n')
  else if n + 1 = g.window_height - 3 then
    match infos_at g.ifinfo (n - 1) with
    | .ok p => andThen (print_player_info g p) (.ok ['\n'])
    | .error f => .error f
  else
    .ok "...\n".toList

/-- Lines 110-131 of `draw_running`: the leaderboard block. -/
def leaderboard (g : Globals) : Except Fault (List Char) :=
  andThen (players_loop g 0 g.ifinfo.infos) (leaderboard_rest g)

/-- The lines of all the players of a list, one after the other in the order
of the list, each closed by a newline (reference rendering against which the
leaderboard block is compared). -/
def all_player_lines (g : Globals) : List player_info → Except Fault (List Char)
  | [] => .ok []
  | p :: rest => andThen (andThen (print_player_info g p) (.ok ['\n'])) (all_player_lines g rest)

/-- Lines 133-145 of `draw_running`: the local player's line, then the scroll
display or the notice. -/
def own_part (g : Globals) : Except Fault (List Char) :=
  andThen (print_player_info g ⟨"<ME>".toList, g.ifinfo.position⟩)
    (if g.ifinfo.position < g.ifinfo.file_size then scroll_print g
     else .ok "Finished.\n".toList)

/-- The function `draw_running`. -/
def draw_running (g : Globals) : Except Fault (List Char) :=
  andThen (.ok (time_line g)) (andThen (leaderboard g) (own_part g))

/-- The clear-screen sequence written by `draw` (line 163). -/
def clear_screen : List Char :=
  [Char.ofNat 27, '[', '2', 'J', Char.ofNat 27, '[', 'H', Char.ofNat 27, '[', '3', 'J']

/-- The bytes written by one call of `draw` (lines 162-196). -/
def draw (g : Globals) : Except Fault (List Char) :=
  andThen (.ok clear_screen)
    (match g.ifinfo.game_state with
     | .WAITING =>
       andThen
         (if g.ifinfo.me_ready then .ok "[Ready]\nPress C to cancel.\n".toList
          else .ok "[Not Ready]\nPress R to get ready.\n".toList)
         (.ok "Press Q to quit.\n".toList)
     | .RUNNING => draw_running g
     | .READY => .ok "Ready\n".toList
     | .END => .ok "End\n".toList
     | .OTHER => .error Fault.assertion)

end XType

/-! ## Concrete states used in evaluations -/

namespace XType

/-- A running race on a terminal one column wide: text `"ab"`, local cursor on
the second byte, no other player. -/
def narrow_terminal : Globals :=
  { ifinfo :=
      { game_state := .RUNNING, me_ready := false, duration := 0, position := 1,
        offset_buffer := 0, file_size := 2, text_size := 2,
        text_buffer := ['a', 'b'], infos := [] },
    window_height := 24, window_width := 1, XTYPE_ID_LENGTH := 16,
    fields_unsigned := false }

/-- A race over the four bytes `"abcd"` with two other players, on a terminal
of 8 rows and 12 columns, identifiers of width 4. -/
def sample_race : Globals :=
  { ifinfo :=
      { game_state := .RUNNING, me_ready := false, duration := 3725, position := 1,
        offset_buffer := 0, file_size := 4, text_size := 4,
        text_buffer := ['a', 'b', 'c', 'd'],
        infos := [⟨['b', 'o', 'b'], 2⟩, ⟨['a', 'l'], 4⟩] },
    window_height := 8, window_width := 12, XTYPE_ID_LENGTH := 4,
    fields_unsigned := false }

/-- The state `sample_race` with an empty race text (`file_size = 0`). -/
def empty_text_race : Globals :=
  { sample_race with
    ifinfo := { sample_race.ifinfo with file_size := 0, text_size := 0, text_buffer := [],
                                        position := 0 } }

/-- The state `sample_race` on a terminal of 5 rows: one line only is left
for the two other players. -/
def crowded_race : Globals := { sample_race with window_height := 5 }

/-- A running race without any other player on a terminal of 4 rows. -/
def lonely_race : Globals :=
  { sample_race with
    ifinfo := { sample_race.ifinfo with infos := [] },
    window_height := 4 }

/-- A player waiting for the race to start, ready flag set. -/
def waiting_ready : Globals :=
  { sample_race with
    ifinfo := { sample_race.ifinfo with game_state := .WAITING, me_ready := true } }

/-- A player waiting for the race to start, ready flag not set. -/
def waiting_not_ready : Globals :=
  { sample_race with
    ifinfo := { sample_race.ifinfo with game_state := .WAITING, me_ready := false } }

/-- The state `narrow_terminal` read with unsigned position and size
fields. -/
def narrow_terminal_unsigned : Globals := { narrow_terminal with fields_unsigned := true }

/-- The state `sample_race` after `2^31 * 3600` seconds. -/
def long_race : Globals :=
  { sample_race with ifinfo := { sample_race.ifinfo with duration := 7730941132800 } }

end XType

/-! ## Auxiliary lemmas -/

namespace XType

theorem putchars_length (lo hi : Int) (c : Char) :
    (putchars lo hi c).length = (hi - lo).toNat := by
  simp [putchars]

/-- The window of `scroll_print` for a cursor inside the text, written with
`min`: the tail is clamped to the text length, and a negative head is shifted
onto the tail. -/
theorem scroll_window_inside (offset T cols : Int) (h0 : 0 ≤ offset) (hT : offset < T) :
    scroll_window offset T cols =
      if min (offset + Int.tdiv cols 2) T - cols < 0 then
        (0, min (min (offset + Int.tdiv cols 2) T + -(min (offset + Int.tdiv cols 2) T - cols)) T)
      else
        (min (offset + Int.tdiv cols 2) T - cols, min (offset + Int.tdiv cols 2) T) := by
  have hcond : ¬ (offset ≥ T ∨ offset < 0) := by omega
  have hmin : ∀ a : Int, (if a > T then T else a) = min a T := by
    intro a
    by_cases ha : a > T
    · simp [ha, min_eq_right (le_of_lt ha)]
    · simp [ha, min_eq_left (not_lt.mp ha)]
  simp only [scroll_window, if_neg hcond, hmin]

/-- Half of a width of at least two columns is at least one column. -/
theorem half_width_pos (cols : Int) (h : 2 ≤ cols) : 1 ≤ Int.tdiv cols 2 := by
  rw [Int.tdiv_eq_ediv (by omega) (by omega)]
  omega

theorem half_width_bounds (cols : Int) (h : 0 ≤ cols) :
    0 ≤ Int.tdiv cols 2 ∧ Int.tdiv cols 2 ≤ cols := by
  rw [Int.tdiv_eq_ediv h (by omega)]
  omega

/-- On a terminal at least two columns wide the window contains the cursor. -/
theorem scroll_window_contains_cursor (offset T cols : Int) (h0 : 0 ≤ offset)
    (hT : offset < T) (hc : 2 ≤ cols) :
    (scroll_window offset T cols).1 ≤ offset ∧ offset < (scroll_window offset T cols).2 := by
  rw [scroll_window_inside offset T cols h0 hT]
  have h1 := half_width_pos cols hc
  have h2 := (half_width_bounds cols (by omega)).2
  split_ifs with hneg <;> simp only <;> omega

/-- Outside the assertion failure `print_player_info` is the identifier field
followed by the bar. -/
theorem print_player_info_of_bar (g : Globals) (info : player_info) (bar : List Char)
    (h : player_bar g info.position = .ok bar) :
    print_player_info g info = .ok (player_head g info.id ++ bar) := by
  simp [print_player_info, h]

/-- A value in the range of `int` is not changed by the conversion. -/
theorem to_int_of_range (x : Int) (hlo : -2147483648 ≤ x) (hhi : x < 2147483648) :
    to_int x = x := by
  unfold to_int
  omega

/-- The bar of a player whose position is below the text length. -/
theorem player_bar_running (g : Globals) (position : Nat)
    (hp : position < g.ifinfo.file_size) :
    player_bar g position =
      .ok (putchars 0
              (mark_length g.fields_unsigned (g.window_width - g.XTYPE_ID_LENGTH - 1)
                position g.ifinfo.file_size) '#' ++
           putchars
              (mark_length g.fields_unsigned (g.window_width - g.XTYPE_ID_LENGTH - 1)
                position g.ifinfo.file_size)
              (g.window_width - g.XTYPE_ID_LENGTH - 1) '-') := by
  have h1 : ¬ position ≥ g.ifinfo.file_size := by omega
  have h2 : ¬ g.ifinfo.file_size = 0 := by omega
  simp only [player_bar, if_neg h1, if_neg h2]

/-- The bar of a player whose position equals the text length. -/
theorem player_bar_complete (g : Globals) (position : Nat)
    (hp : position = g.ifinfo.file_size) :
    player_bar g position = .ok (putchars 0 (g.window_width - g.XTYPE_ID_LENGTH - 1) '*') := by
  have h1 : position ≥ g.ifinfo.file_size := by omega
  simp only [player_bar, if_pos h1, if_pos hp]

/-- The bar of a player whose position exceeds the text length. -/
theorem player_bar_beyond (g : Globals) (position : Nat)
    (hp : g.ifinfo.file_size < position) :
    player_bar g position = .error Fault.assertion := by
  have h1 : position ≥ g.ifinfo.file_size := by omega
  have h2 : ¬ position = g.ifinfo.file_size := by omega
  simp only [player_bar, if_pos h1, if_neg h2]

theorem andThen_ok_nil_left (b : Except Fault (List Char)) : andThen (.ok []) b = b := by
  cases b <;> simp [andThen]

theorem andThen_ok_nil_right (a : Except Fault (List Char)) : andThen a (.ok []) = a := by
  cases a <;> simp [andThen]

theorem andThen_assoc (a b c : Except Fault (List Char)) :
    andThen (andThen a b) c = andThen a (andThen b c) := by
  cases a <;> cases b <;> cases c <;> simp [andThen]

theorem andThen_ok_ok (x y : List Char) :
    andThen (.ok x) (.ok y) = (.ok (x ++ y) : Except Fault (List Char)) := rfl

/-- The reference rendering of a list extended by one player. -/
theorem all_player_lines_concat (g : Globals) (init : List player_info) (last : player_info) :
    all_player_lines g (init ++ [last]) =
      andThen (all_player_lines g init) (andThen (print_player_info g last) (.ok ['\n'])) := by
  induction init with
  | nil => simp [all_player_lines, andThen_ok_nil_left, andThen_ok_nil_right]
  | cons p rest ih =>
    simp only [List.cons_append, all_player_lines, List.append_eq, ih, andThen_assoc]

/-- The loop of `draw_running` prints every remaining player when all of them
fit strictly below the limit `window_height - 4`. -/
theorem players_loop_all (g : Globals) (rest : List player_info) :
    ∀ i : Nat, (i : Int) + (rest.length : Int) < g.window_height - 4 →
      players_loop g i rest = all_player_lines g rest := by
  induction rest with
  | nil => intro i _; rfl
  | cons p rest ih =>
    intro i hfit
    have hlen : ((p :: rest).length : Int) = (rest.length : Int) + 1 := by simp
    have hcond : (i : Int) + 1 < g.window_height - 4 := by omega
    have hnext : ((i + 1 : Nat) : Int) + (rest.length : Int) < g.window_height - 4 := by
      push_cast
      omega
    simp only [players_loop, if_pos hcond, all_player_lines, ih (i + 1) hnext]

/-- The loop of `draw_running` stops one short of the limit: when
`i + init.length + 1 = window_height - 4` it prints the players of `init` and
none of those that follow. -/
theorem players_loop_stop (g : Globals) (init later : List player_info) :
    ∀ i : Nat, (i : Int) + (init.length : Int) + 1 = g.window_height - 4 →
      players_loop g i (init ++ later) = all_player_lines g init := by
  induction init with
  | nil =>
    intro i hfit
    have hcond : ¬ ((i : Int) + 1 < g.window_height - 4) := by
      simp only [List.length_nil, Nat.cast_zero] at hfit
      omega
    cases later with
    | nil => rfl
    | cons q later => simp only [List.nil_append, players_loop, if_neg hcond, all_player_lines]
  | cons p rest ih =>
    intro i hfit
    have hlen : ((p :: rest).length : Int) = (rest.length : Int) + 1 := by simp
    have hcond : (i : Int) + 1 < g.window_height - 4 := by omega
    have hnext : ((i + 1 : Nat) : Int) + (rest.length : Int) + 1 = g.window_height - 4 := by
      push_cast
      omega
    simp only [List.cons_append, players_loop, if_pos hcond, all_player_lines,
      List.append_eq, ih (i + 1) hnext]

/-- Reading the last entry of the player array. -/
theorem infos_at_last (s : ifinfo_t) (init : List player_info) (last : player_info)
    (h : s.infos = init ++ [last]) :
    infos_at s ((s.infos_count : Int) - 1) = .ok last := by
  have hn : s.infos_count = init.length + 1 := by simp [ifinfo_t.infos_count, h]
  have hk : ((s.infos_count : Int) - 1).toNat = init.length := by omega
  have h0 : (0 : Int) ≤ (s.infos_count : Int) - 1 := by omega
  simp only [infos_at, if_pos h0, hk, h, List.getElem?_concat_length]

/-- Players whose positions do not exceed the text length are all rendered:
the reference rendering returns normally, with one line for each player, in
order. -/
theorem all_player_lines_ok (g : Globals) (ps : List player_info)
    (hpos : ∀ p ∈ ps, p.position ≤ g.ifinfo.file_size) :
    ∃ lines : List (List Char),
      List.Forall₂ (fun p line => print_player_info g p = .ok line) ps lines ∧
      all_player_lines g ps = .ok (lines.map (fun line => line ++ ['\n'])).flatten := by
  induction ps with
  | nil => exact ⟨[], List.Forall₂.nil, rfl⟩
  | cons p rest ih =>
    obtain ⟨lines, hall, hout⟩ := ih (fun q hq => hpos q (List.mem_cons_of_mem p hq))
    have hp : p.position ≤ g.ifinfo.file_size := hpos p (List.mem_cons_self p rest)
    have hex : ∃ bar : List Char, player_bar g p.position = .ok bar := by
      rcases Nat.lt_or_ge p.position g.ifinfo.file_size with hlt | hge
      · exact ⟨_, player_bar_running g p.position hlt⟩
      · exact ⟨_, player_bar_complete g p.position (by omega)⟩
    obtain ⟨bar, hbar⟩ := hex
    have hline := print_player_info_of_bar g p bar hbar
    refine ⟨(player_head g p.id ++ bar) :: lines, List.Forall₂.cons hline hall, ?_⟩
    simp only [all_player_lines, hline, hout, andThen_ok_ok, List.map_cons, List.flatten_cons]

/-- Mapping over a list of naturals read as integers. -/
theorem map_cast_list {β : Type} (f : Int → β) (l : List Nat) :
    List.map f (do let a ← l; pure (a : Int) : List Int) =
      l.map (fun a : Nat => f (a : Int)) := by
  induction l with
  | nil => rfl
  | cons a l ih =>
    show List.map f ([(a : Int)] ++ (do let a ← l; pure (a : Int) : List Int)) = _
    rw [List.map_append, ih]
    rfl

/-- The marker line as a map over the columns `0, 1, ..., tail - head - 1`. -/
theorem marker_line_eq (offset head tail : Int) :
    marker_line offset head tail =
      (List.range (tail - head).toNat).map
        (fun k : Nat => if head + (k : Int) ≠ offset then ' ' else '|') := by
  unfold marker_line
  exact map_cast_list _ _

theorem marker_line_length (offset head tail : Int) :
    (marker_line offset head tail).length = (tail - head).toNat := by
  rw [marker_line_eq, List.length_map, List.length_range]

/-- The marker line holds spaces and cursor marks only. -/
theorem marker_line_chars (offset head tail : Int) :
    ∀ c ∈ marker_line offset head tail, c = ' ' ∨ c = '|' := by
  intro c hc
  simp only [marker_line_eq, List.mem_map, List.mem_range] at hc
  obtain ⟨k, _, hk⟩ := hc
  by_cases hcur : head + (k : Int) ≠ offset
  · rw [if_pos hcur] at hk
    exact Or.inl hk.symm
  · rw [if_neg hcur] at hk
    exact Or.inr hk.symm

/-- An empty window writes no text byte. -/
theorem text_slice_empty (buf : List Char) (head tail : Int) (h : (tail - head).toNat = 0) :
    text_slice buf head tail = .ok [] := by
  have hle : ¬ tail > head := by omega
  simp only [text_slice, if_neg hle]

/-- The scroll display is never the notice `"Finished."`: its last line is
made of spaces and cursor marks, one for each byte of the slice. -/
theorem scroll_print_ne_notice (g : Globals) :
    scroll_print g ≠ .ok "Finished.\n".toList := by
  intro h
  unfold scroll_print at h
  simp only at h
  split at h
  · split at h
    · rename_i slice hslice
      have hout := Except.ok.inj h
      rcases List.eq_nil_or_concat
          (marker_line (cursor_offset g)
            (scroll_window (cursor_offset g) g.ifinfo.text_size g.window_width).1
            (scroll_window (cursor_offset g) g.ifinfo.text_size g.window_width).2)
        with hnil | ⟨init, c, hc⟩
      · have hz : ((scroll_window (cursor_offset g) g.ifinfo.text_size g.window_width).2 -
            (scroll_window (cursor_offset g) g.ifinfo.text_size g.window_width).1).toNat = 0 := by
          rw [← marker_line_length (cursor_offset g), hnil]
          rfl
        rw [text_slice_empty _ _ _ hz] at hslice
        have hs := Except.ok.inj hslice
        rw [hnil, ← hs] at hout
        revert hout
        decide
      · have hmem : c ∈ marker_line (cursor_offset g)
            (scroll_window (cursor_offset g) g.ifinfo.text_size g.window_width).1
            (scroll_window (cursor_offset g) g.ifinfo.text_size g.window_width).2 := by
          rw [hc]
          simp
        have hchar := marker_line_chars _ _ _ c hmem
        rw [hc, List.concat_eq_append, ← List.append_assoc] at hout
        have hlast := congrArg List.getLast? hout
        rw [List.getLast?_concat] at hlast
        have hnl : c = '\n' := by
          have : "Finished.\n".toList.getLast? = some '\n' := by decide
          rw [this] at hlast
          exact Option.some.inj hlast
        rcases hchar with hsp | hbar
        · rw [hsp] at hnl
          revert hnl
          decide
        · rw [hbar] at hnl
          revert hnl
          decide
    · cases h
  · cases h

/-- After the local line, the scroll display cannot be mistaken for the
notice. -/
theorem andThen_scroll_print_ne_notice (g : Globals) (me : List Char) :
    andThen (.ok me) (scroll_print g) ≠ .ok (me ++ "Finished.\n".toList) := by
  intro h
  cases hs : scroll_print g with
  | error f =>
    rw [hs] at h
    cases h
  | ok out =>
    rw [hs, andThen_ok_ok] at h
    have hout := List.append_cancel_left (Except.ok.inj h)
    exact scroll_print_ne_notice g (by rw [hs, hout])

/-- Half of a negative width lies between the width and zero. -/
theorem half_width_neg (cols : Int) (h : cols < 0) :
    cols ≤ Int.tdiv cols 2 ∧ Int.tdiv cols 2 ≤ 0 := by
  have hb := half_width_bounds (-cols) (by omega)
  have hn : cols = -(-cols) := by ring
  have ht : Int.tdiv cols 2 = -Int.tdiv (-cols) 2 := by
    conv_lhs => rw [hn]
    rw [Int.neg_tdiv]
  omega

/-- The conversion `%d` of a value that is not negative writes its decimal
digits. -/
theorem printf_d_natCast (n : Nat) : printf_d (n : Int) = Nat.toDigits 10 n := by
  have hneg : ¬ ((n : Int) < 0) := by omega
  simp only [printf_d, if_neg hneg, Int.toNat_natCast]

/-- The conversion `%02d` of a value below 60 writes exactly two digits, the
tens (zero included) and the units. -/
theorem printf_02d_two_digits (m : Nat) (hm : m < 60) :
    printf_02d (m : Int) = [Nat.digitChar (m / 10), Nat.digitChar (m % 10)] := by
  interval_cases m <;> decide

theorem tmod_natCast (d k : Nat) : Int.tmod (d : Int) (k : Int) = ((d % k : Nat) : Int) :=
  (Int.ofNat_tmod d k).symm

theorem tdiv_natCast (d k : Nat) : Int.tdiv (d : Int) (k : Int) = ((d / k : Nat) : Int) :=
  (Int.ofNat_tdiv d k).symm

theorem andThen_eq_error (a b : Except Fault (List Char)) (f : Fault)
    (h : andThen a b = .error f) : a = .error f ∨ b = .error f := by
  cases a with
  | error fa => exact Or.inl h
  | ok x =>
    cases b with
    | error fb => exact Or.inr h
    | ok y => cases h

/-- Rendering one player never reads outside an array. -/
theorem print_player_info_in_range (g : Globals) (p : player_info) :
    print_player_info g p ≠ .error Fault.outOfBounds := by
  intro h
  rcases Nat.lt_or_ge g.ifinfo.file_size p.position with hgt | hle
  · simp [print_player_info, player_bar_beyond g p.position hgt] at h
  · rcases Nat.lt_or_ge p.position g.ifinfo.file_size with hlt | hge
    · simp [print_player_info, player_bar_running g p.position hlt] at h
    · simp [print_player_info, player_bar_complete g p.position (by omega)] at h

/-- The loop of `draw_running` reads the entries `infos[i]` with
`i < infos_count` only. -/
theorem players_loop_in_range (g : Globals) (rest : List player_info) :
    ∀ i : Nat, players_loop g i rest ≠ .error Fault.outOfBounds := by
  induction rest with
  | nil =>
    intro i h
    cases h
  | cons p rest ih =>
    intro i h
    by_cases hcond : (i : Int) + 1 < g.window_height - 4
    · simp only [players_loop, if_pos hcond] at h
      rcases andThen_eq_error _ _ _ h with h1 | h2
      · rcases andThen_eq_error _ _ _ h1 with h3 | h4
        · exact print_player_info_in_range g p h3
        · cases h4
      · exact ih (i + 1) h2
    · simp only [players_loop, if_neg hcond] at h
      cases h

/-- Apart from the case of an empty player list on a terminal of 4 rows, the
leaderboard block of `draw_running` never reads a player entry that does not
exist. -/
theorem leaderboard_in_range (g : Globals)
    (h : ¬ (g.ifinfo.infos.length = 0 ∧ g.window_height = 4)) :
    leaderboard g ≠ .error Fault.outOfBounds := by
  intro hoob
  rcases andThen_eq_error _ _ _ hoob with hloop | hrest
  · exact players_loop_in_range g _ 0 hloop
  · by_cases hcond1 : ((g.ifinfo.infos_count : Nat) : Int) + 1 < g.window_height - 3
    · simp only [leaderboard_rest, if_pos hcond1] at hrest
      cases hrest
    · by_cases hcond2 : ((g.ifinfo.infos_count : Nat) : Int) + 1 = g.window_height - 3
      · rcases List.eq_nil_or_concat g.ifinfo.infos with hnil | ⟨init, last, hcat⟩
        · apply h
          simp only [ifinfo_t.infos_count, hnil, List.length_nil, Nat.cast_zero] at hcond2
          refine ⟨by rw [hnil]; rfl, by omega⟩
        · rw [List.concat_eq_append] at hcat
          simp only [leaderboard_rest, if_neg hcond1, if_pos hcond2,
            infos_at_last g.ifinfo init last hcat] at hrest
          rcases andThen_eq_error _ _ _ hrest with h1 | h2
          · exact print_player_info_in_range g last h1
          · cases h2
      · simp only [leaderboard_rest, if_neg hcond1, if_neg hcond2] at hrest
        cases hrest

/-- A window that is not empty lies inside the text. -/
theorem scroll_window_nonempty_bounds (offset T cols : Int)
    (hlt : (scroll_window offset T cols).1 < (scroll_window offset T cols).2) :
    0 ≤ (scroll_window offset T cols).1 ∧ (scroll_window offset T cols).2 ≤ T := by
  by_cases hout : offset ≥ T ∨ offset < 0
  · simp only [scroll_window, if_pos hout] at hlt
    omega
  · rw [scroll_window_inside offset T cols (by omega) (by omega)] at hlt ⊢
    rcases lt_or_le cols 0 with hneg | hpos
    · have hb := half_width_neg cols hneg
      split_ifs at hlt ⊢ with hshift <;> simp only at hlt ⊢ <;> omega
    · have hb := half_width_bounds cols hpos
      split_ifs at hlt ⊢ with hshift <;> simp only at hlt ⊢ <;> omega

/-- The bytes written by `fwrite` for the window of `scroll_print` are the
bytes `head, ..., tail - 1` of the buffer, `tail - head` of them, whenever
the buffer holds the `T` bytes of the text. -/
theorem text_slice_window (buf : List Char) (offset T cols : Int)
    (hbuf : T ≤ (buf.length : Int)) :
    text_slice buf (scroll_window offset T cols).1 (scroll_window offset T cols).2 =
      .ok ((buf.drop (scroll_window offset T cols).1.toNat).take
            ((scroll_window offset T cols).2 - (scroll_window offset T cols).1).toNat) ∧
    ((buf.drop (scroll_window offset T cols).1.toNat).take
        ((scroll_window offset T cols).2 - (scroll_window offset T cols).1).toNat).length =
      ((scroll_window offset T cols).2 - (scroll_window offset T cols).1).toNat := by
  by_cases hlt : (scroll_window offset T cols).2 > (scroll_window offset T cols).1
  · have hb := scroll_window_nonempty_bounds offset T cols hlt
    have hin : 0 ≤ (scroll_window offset T cols).1 ∧
        (scroll_window offset T cols).2 ≤ (buf.length : Int) := ⟨hb.1, by omega⟩
    refine ⟨by simp only [text_slice, if_pos hlt, if_pos hin], ?_⟩
    rw [List.length_take, List.length_drop]
    omega
  · have hz : ((scroll_window offset T cols).2 - (scroll_window offset T cols).1).toNat = 0 := by
      omega
    refine ⟨by simp only [text_slice, if_neg hlt, hz, List.take_zero], ?_⟩
    rw [hz]
    rfl

/-- The character of the marker line at column `k`. -/
theorem marker_line_getElem? (offset head tail : Int) (k : Nat)
    (hk : k < (tail - head).toNat) :
    (marker_line offset head tail)[k]? =
      some (if head + (k : Int) = offset then '|' else ' ') := by
  rw [marker_line_eq, List.getElem?_map, List.getElem?_range hk]
  by_cases hcur : head + (k : Int) = offset
  · simp [hcur]
  · simp [hcur]

/-- Number of cursor marks among the first `n` columns of the marker line. -/
theorem marker_count (offset head : Int) (hle : head ≤ offset) (n : Nat) :
    ((List.range n).map
        (fun k : Nat => if head + (k : Int) ≠ offset then ' ' else '|')).count '|' =
      if (offset - head).toNat < n then 1 else 0 := by
  induction n with
  | zero => rfl
  | succ n ih =>
    rw [List.range_succ, List.map_append, List.count_append, ih]
    by_cases hcur : head + (n : Int) = offset
    · have h1 : ¬ ((offset - head).toNat < n) := by omega
      have h2 : (offset - head).toNat < n + 1 := by omega
      simp [hcur, h1, h2]
    · by_cases hbefore : (offset - head).toNat < n
      · have h2 : (offset - head).toNat < n + 1 := by omega
        simp [hcur, hbefore, h2]
      · have h2 : ¬ ((offset - head).toNat < n + 1) := by omega
        simp [hcur, hbefore, h2]

/-- A window that contains the cursor shows exactly one cursor mark. -/
theorem marker_line_one_mark (offset head tail : Int) (hle : head ≤ offset)
    (hlt : offset < tail) : (marker_line offset head tail).count '|' = 1 := by
  rw [marker_line_eq, marker_count offset head hle]
  have h : (offset - head).toNat < (tail - head).toNat := by omega
  rw [if_pos h]

/-- The assertion of `scroll_print` holds when the cursor is outside the text
and when the terminal has at least two columns. -/
theorem scroll_assert_holds (offset T cols : Int)
    (h : offset < 0 ∨ T ≤ offset ∨ 2 ≤ cols) :
    scroll_assert offset (scroll_window offset T cols).1 (scroll_window offset T cols).2 =
      true := by
  by_cases hout : offset ≥ T ∨ offset < 0
  · simp [scroll_window, if_pos hout, scroll_assert]
  · have hc : 2 ≤ cols := by omega
    have hin := scroll_window_contains_cursor offset T cols (by omega) (by omega) hc
    simp [scroll_assert, hin.1, hin.2]

/-- With unsigned fields a negative bar length is converted to a large
unsigned value before the product of line 51: on a terminal one column wide
with identifiers of width 16, position 1 of a text of 2 bytes gives
`mark_length = 2147483640`. -/
theorem mark_length_unsigned_narrow : mark_length true (-16) 1 2 = 2147483640 := by
  decide

/-- The bar written in the state `narrow_terminal_unsigned` for a player at
position 1 has 2147483640 characters. -/
theorem player_bar_narrow_unsigned :
    ∃ bar : List Char,
      player_bar narrow_terminal_unsigned 1 = .ok bar ∧ bar.length = 2147483640 := by
  refine ⟨_, player_bar_running narrow_terminal_unsigned 1 (by decide), ?_⟩
  rw [List.length_append, putchars_length, putchars_length]
  decide

end XType

/-! ## Theorems -/

namespace XType

/-- C1, evaluated at the failing input: on a terminal one column wide, with the
cursor at offset 1 of a text of length 2, `scroll_print` computes the window
`[0, 1)`, which does not contain the cursor and is not empty, so the assertion
on line 84 fails and the Running frame is not produced. -/
theorem scroll_print_width_one_assertion_fails :
    scroll_window 1 2 1 = (0, 1) ∧
    scroll_assert 1 (scroll_window 1 2 1).1 (scroll_window 1 2 1).2 = false ∧
    scroll_print narrow_terminal = .error Fault.assertion ∧
    draw narrow_terminal = .error Fault.assertion := by
  refine ⟨by decide, by decide, by decide, by decide⟩

/-- C2: for every cursor offset, every text length `T ≥ 0` and every width
`cols ≥ 0`, the window of `scroll_print` satisfies `0 ≤ head ≤ tail ≤ T` and
`tail - head ≤ cols`; hence the slice read from a buffer holding at least `T`
bytes is never a read outside the buffer. -/
theorem scroll_window_within_text (offset T cols : Int) (hT : 0 ≤ T) (hc : 0 ≤ cols) :
    0 ≤ (scroll_window offset T cols).1 ∧
    (scroll_window offset T cols).1 ≤ (scroll_window offset T cols).2 ∧
    (scroll_window offset T cols).2 ≤ T ∧
    (scroll_window offset T cols).2 - (scroll_window offset T cols).1 ≤ cols ∧
    ∀ buf : List Char, T ≤ (buf.length : Int) →
      text_slice buf (scroll_window offset T cols).1 (scroll_window offset T cols).2 =
        .ok ((buf.drop (scroll_window offset T cols).1.toNat).take
              ((scroll_window offset T cols).2 - (scroll_window offset T cols).1).toNat) := by
  have key : 0 ≤ (scroll_window offset T cols).1 ∧
      (scroll_window offset T cols).1 ≤ (scroll_window offset T cols).2 ∧
      (scroll_window offset T cols).2 ≤ T ∧
      (scroll_window offset T cols).2 - (scroll_window offset T cols).1 ≤ cols := by
    by_cases hout : offset ≥ T ∨ offset < 0
    · simp only [scroll_window, if_pos hout]
      omega
    · rw [scroll_window_inside offset T cols (by omega) (by omega)]
      have h2 := half_width_bounds cols hc
      split_ifs with hneg <;> simp only <;> omega
  obtain ⟨k1, k2, k3, k4⟩ := key
  refine ⟨k1, k2, k3, k4, ?_⟩
  intro buf hbuf
  unfold text_slice
  by_cases hlt : (scroll_window offset T cols).2 > (scroll_window offset T cols).1
  · have hin : 0 ≤ (scroll_window offset T cols).1 ∧
        (scroll_window offset T cols).2 ≤ (buf.length : Int) := ⟨k1, by omega⟩
    rw [if_pos hlt, if_pos hin]
  · have hz : ((scroll_window offset T cols).2 - (scroll_window offset T cols).1).toNat = 0 := by
      omega
    rw [if_neg hlt, hz]
    simp

theorem scroll_window_within_text_witness :
    0 ≤ (scroll_window 5 100 20).1 ∧
    (scroll_window 5 100 20).1 ≤ (scroll_window 5 100 20).2 ∧
    (scroll_window 5 100 20).2 ≤ 100 ∧
    (scroll_window 5 100 20).2 - (scroll_window 5 100 20).1 ≤ 20 ∧
    ∀ buf : List Char, (100 : Int) ≤ (buf.length : Int) →
      text_slice buf (scroll_window 5 100 20).1 (scroll_window 5 100 20).2 =
        .ok ((buf.drop (scroll_window 5 100 20).1.toNat).take
              ((scroll_window 5 100 20).2 - (scroll_window 5 100 20).1).toNat) :=
  scroll_window_within_text 5 100 20 (by decide) (by decide)

/-- C3: when the cursor offset is negative or not below the text length,
`scroll_print` computes the empty window `head = tail = 0`, writes no text
byte and an empty marker line: its whole output is one newline. -/
theorem scroll_print_cursor_outside (g : Globals)
    (h : cursor_offset g < 0 ∨ cursor_offset g ≥ (g.ifinfo.text_size : Int)) :
    scroll_window (cursor_offset g) g.ifinfo.text_size g.window_width = (0, 0) ∧
    text_slice g.ifinfo.text_buffer 0 0 = .ok [] ∧
    marker_line (cursor_offset g) 0 0 = [] ∧
    scroll_print g = .ok ['\n'] := by
  have hw : scroll_window (cursor_offset g) g.ifinfo.text_size g.window_width = (0, 0) := by
    have hcond : cursor_offset g ≥ (g.ifinfo.text_size : Int) ∨ cursor_offset g < 0 := by
      omega
    simp only [scroll_window, if_pos hcond]
  have hs : text_slice g.ifinfo.text_buffer 0 0 = .ok [] := by simp [text_slice]
  have hm : marker_line (cursor_offset g) 0 0 = [] := by simp [marker_line]
  refine ⟨hw, hs, hm, ?_⟩
  simp only [scroll_print, hw, hs, hm]
  simp [scroll_assert]

theorem scroll_print_cursor_outside_witness :
    scroll_window (cursor_offset empty_text_race) empty_text_race.ifinfo.text_size
        empty_text_race.window_width = (0, 0) ∧
    text_slice empty_text_race.ifinfo.text_buffer 0 0 = .ok [] ∧
    marker_line (cursor_offset empty_text_race) 0 0 = [] ∧
    scroll_print empty_text_race = .ok ['\n'] :=
  scroll_print_cursor_outside empty_text_race (by decide)

end XType

namespace XType

/-- C6: when `position = total` (in particular when `position = total > 0`)
the bar consists of the complete mark `'*'` only,
`cols - (XTYPE_ID_LENGTH + 1)` of them when that is positive and none
otherwise. -/
theorem player_bar_all_complete (g : Globals) (position : Nat)
    (hp : position = g.ifinfo.file_size) :
    player_bar g position =
      .ok (List.replicate (g.window_width - ((g.XTYPE_ID_LENGTH : Int) + 1)).toNat '*') := by
  have hbl : g.window_width - (g.XTYPE_ID_LENGTH : Int) - 1 =
      g.window_width - ((g.XTYPE_ID_LENGTH : Int) + 1) := by ring
  rw [player_bar_complete g position hp, hbl]
  simp [putchars]

theorem player_bar_all_complete_witness :
    player_bar sample_race 4 = .ok ['*', '*', '*', '*', '*', '*', '*'] :=
  (player_bar_all_complete sample_race 4 (by decide)).trans (by decide)

/-- C7, the claim refuted at a concrete input: with an empty race text
(`file_size = 0`) a player at position 1 makes `print_player_info` fail on
its assertion instead of printing a bar of `'*'`. -/
theorem player_bar_zero_total_position_one_fails :
    empty_text_race.ifinfo.file_size = 0 ∧
    player_bar empty_text_race 1 = .error Fault.assertion ∧
    print_player_info empty_text_race ⟨['b', 'o', 'b'], 1⟩ = .error Fault.assertion := by
  refine ⟨by decide, by decide, by decide⟩

/-- C7 as amended: when the total text length is zero, position 0 is treated
as complete (a full bar of `'*'`, the call returns normally), every other
position fails the assertion, and in neither case is a division by zero
performed. -/
theorem player_bar_zero_total (g : Globals) (position : Nat)
    (h0 : g.ifinfo.file_size = 0) :
    (position = 0 →
      player_bar g position =
        .ok (List.replicate (g.window_width - ((g.XTYPE_ID_LENGTH : Int) + 1)).toNat '*')) ∧
    (position ≠ 0 → player_bar g position = .error Fault.assertion) ∧
    player_bar g position ≠ .error Fault.divByZero := by
  have hbl : g.window_width - (g.XTYPE_ID_LENGTH : Int) - 1 =
      g.window_width - ((g.XTYPE_ID_LENGTH : Int) + 1) := by ring
  have hstar : position = 0 →
      player_bar g position =
        .ok (List.replicate (g.window_width - ((g.XTYPE_ID_LENGTH : Int) + 1)).toNat '*') := by
    intro hz
    rw [player_bar_complete g position (by omega), hbl]
    simp [putchars]
  have hfail : position ≠ 0 → player_bar g position = .error Fault.assertion := by
    intro hz
    exact player_bar_beyond g position (by omega)
  refine ⟨hstar, hfail, ?_⟩
  by_cases hz : position = 0
  · rw [hstar hz]
    simp
  · rw [hfail hz]
    simp

theorem player_bar_zero_total_witness :
    empty_text_race.ifinfo.file_size = 0 ∧
    player_bar empty_text_race 0 = .ok ['*', '*', '*', '*', '*', '*', '*'] ∧
    player_bar empty_text_race 3 = .error Fault.assertion ∧
    player_bar empty_text_race 3 ≠ .error Fault.divByZero :=
  ⟨by decide,
   ((player_bar_zero_total empty_text_race 0 (by decide)).1 rfl).trans (by decide),
   (player_bar_zero_total empty_text_race 3 (by decide)).2.1 (by decide),
   (player_bar_zero_total empty_text_race 3 (by decide)).2.2⟩

/-- C9: a player whose position is strictly greater than the total text
length makes `print_player_info` fail on its assertion, and the call returns
normally, with the identifier field and a bar, exactly when
`position ≤ total`. -/
theorem print_player_info_fails_iff_beyond (g : Globals) (info : player_info) :
    (print_player_info g info = .error Fault.assertion ↔
      g.ifinfo.file_size < info.position) ∧
    ((∃ bar : List Char, print_player_info g info = .ok (player_head g info.id ++ bar)) ↔
      info.position ≤ g.ifinfo.file_size) := by
  rcases Nat.lt_or_ge g.ifinfo.file_size info.position with hgt | hle
  · have hb := player_bar_beyond g info.position hgt
    have hpr : print_player_info g info = .error Fault.assertion := by
      simp [print_player_info, hb]
    constructor
    · exact ⟨fun _ => hgt, fun _ => hpr⟩
    · constructor
      · rintro ⟨bar, hbar⟩
        rw [hpr] at hbar
        cases hbar
      · intro h
        omega
  · have hex : ∃ bar : List Char, player_bar g info.position = .ok bar := by
      rcases Nat.lt_or_ge info.position g.ifinfo.file_size with hlt | hge
      · exact ⟨_, player_bar_running g info.position hlt⟩
      · exact ⟨_, player_bar_complete g info.position (by omega)⟩
    obtain ⟨bar, hbar⟩ := hex
    have hpr := print_player_info_of_bar g info bar hbar
    constructor
    · constructor
      · intro h
        rw [hpr] at h
        cases h
      · intro h
        omega
    · exact ⟨fun _ => hle, fun _ => ⟨bar, hpr⟩⟩

end XType

namespace XType

/-- C10: in the Running phase, when the player count `n` satisfies
`n < rows - 4`, or `n = rows - 4` with `n ≥ 1`, the leaderboard block of
`draw_running` is the lines of all `n` players, each once and in the order of
the player list, followed by `rows - 4 - n` blank lines and no truncation
marker. When every position is at most the text length the block is produced
and has exactly `rows - 4` lines. -/
theorem leaderboard_shows_all_players (g : Globals)
    (hfit : (g.ifinfo.infos.length : Int) < g.window_height - 4 ∨
      ((g.ifinfo.infos.length : Int) = g.window_height - 4 ∧ 1 ≤ g.ifinfo.infos.length)) :
    leaderboard g =
      andThen (all_player_lines g g.ifinfo.infos)
        (.ok (List.replicate (g.window_height - 4 - (g.ifinfo.infos.length : Int)).toNat '\n')) ∧
    ((∀ p ∈ g.ifinfo.infos, p.position ≤ g.ifinfo.file_size) →
      ∃ lines : List (List Char),
        List.Forall₂ (fun p line => print_player_info g p = .ok line) g.ifinfo.infos lines ∧
        leaderboard g =
          .ok ((lines.map (fun line => line ++ ['\n'])).flatten ++
            List.replicate (g.window_height - 4 - (g.ifinfo.infos.length : Int)).toNat '\n') ∧
        ((lines.length : Int) +
            ((g.window_height - 4 - (g.ifinfo.infos.length : Int)).toNat : Int) =
          g.window_height - 4)) := by
  have hblock : leaderboard g =
      andThen (all_player_lines g g.ifinfo.infos)
        (.ok (List.replicate
          (g.window_height - 4 - (g.ifinfo.infos.length : Int)).toNat '\n')) := by
    rcases hfit with hlt | ⟨heq, hpos⟩
    · have hloop := players_loop_all g g.ifinfo.infos 0 (by simpa using hlt)
      have hcond : ((g.ifinfo.infos_count : Nat) : Int) + 1 < g.window_height - 3 := by
        simp only [ifinfo_t.infos_count]
        omega
      have hsub : g.window_height - 3 - 1 - ((g.ifinfo.infos_count : Nat) : Int) =
          g.window_height - 4 - (g.ifinfo.infos.length : Int) := by
        simp only [ifinfo_t.infos_count]
        ring
      simp only [leaderboard, hloop, leaderboard_rest, if_pos hcond, putchars, hsub]
    · rcases List.eq_nil_or_concat g.ifinfo.infos with hnil | ⟨init, last, hcat⟩
      · rw [hnil] at hpos
        simp at hpos
      · rw [List.concat_eq_append] at hcat
        have hlen : (g.ifinfo.infos.length : Int) = (init.length : Int) + 1 := by
          rw [hcat]
          simp
        have hloop : players_loop g 0 g.ifinfo.infos = all_player_lines g init := by
          rw [hcat]
          exact players_loop_stop g init [last] 0 (by simp only [Nat.cast_zero]; omega)
        have hcond1 : ¬ (((g.ifinfo.infos_count : Nat) : Int) + 1 < g.window_height - 3) := by
          simp only [ifinfo_t.infos_count]
          omega
        have hcond2 : ((g.ifinfo.infos_count : Nat) : Int) + 1 = g.window_height - 3 := by
          simp only [ifinfo_t.infos_count]
          omega
        have hzero : (g.window_height - 4 - (g.ifinfo.infos.length : Int)).toNat = 0 := by
          omega
        have hall : all_player_lines g g.ifinfo.infos =
            andThen (all_player_lines g init)
              (andThen (print_player_info g last) (.ok ['\n'])) := by
          rw [hcat]
          exact all_player_lines_concat g init last
        simp only [leaderboard, hloop, leaderboard_rest, if_neg hcond1, if_pos hcond2,
          infos_at_last g.ifinfo init last hcat, hzero, List.replicate_zero,
          andThen_ok_nil_right, hall]
  refine ⟨hblock, ?_⟩
  intro hvalid
  obtain ⟨lines, hall, hout⟩ := all_player_lines_ok g g.ifinfo.infos hvalid
  refine ⟨lines, hall, ?_, ?_⟩
  · rw [hblock, hout, andThen_ok_ok]
  · have hl : lines.length = g.ifinfo.infos.length := (List.Forall₂.length_eq hall).symm
    rw [hl]
    rcases hfit with hlt | ⟨heq, _⟩ <;> omega

theorem leaderboard_shows_all_players_witness :
    leaderboard sample_race =
      .ok ['b', 'o', 'b', ' ', ' ', '#', '#', '#', '-', '-', '-', '-', '\n',
           'a', 'l', ' ', ' ', ' ', '*', '*', '*', '*', '*', '*', '*', '\n',
           '\n', '\n'] ∧
    leaderboard { sample_race with window_height := 6 } =
      .ok ['b', 'o', 'b', ' ', ' ', '#', '#', '#', '-', '-', '-', '-', '\n',
           'a', 'l', ' ', ' ', ' ', '*', '*', '*', '*', '*', '*', '*', '\n'] :=
  ⟨((leaderboard_shows_all_players sample_race (Or.inl (by decide))).1).trans (by decide),
   ((leaderboard_shows_all_players { sample_race with window_height := 6 }
      (Or.inr ⟨by decide, by decide⟩)).1).trans (by decide)⟩

end XType

namespace XType

/-- C11: in the Running phase, when `rows ≥ 5` and the player count `n`
exceeds `rows - 4`, the leaderboard block of `draw_running` is the lines of
the first `rows - 5` players, in list order, followed by the one
truncation-marker line `"..."`. When the positions of these players are at
most the text length the block is produced and has exactly `rows - 4`
lines. -/
theorem leaderboard_truncated (g : Globals)
    (hrows : 5 ≤ g.window_height)
    (hmany : g.window_height - 4 < (g.ifinfo.infos.length : Int)) :
    leaderboard g =
      andThen (all_player_lines g (g.ifinfo.infos.take (g.window_height - 5).toNat))
        (.ok ['.', '.', '.', '\n']) ∧
    ((g.ifinfo.infos.take (g.window_height - 5).toNat).length : Int) = g.window_height - 5 ∧
    ((∀ p ∈ g.ifinfo.infos.take (g.window_height - 5).toNat,
        p.position ≤ g.ifinfo.file_size) →
      ∃ lines : List (List Char),
        List.Forall₂ (fun p line => print_player_info g p = .ok line)
          (g.ifinfo.infos.take (g.window_height - 5).toNat) lines ∧
        leaderboard g =
          .ok ((lines.map (fun line => line ++ ['\n'])).flatten ++ ['.', '.', '.', '\n']) ∧
        (lines.length : Int) + 1 = g.window_height - 4) := by
  have hlen : ((g.ifinfo.infos.take (g.window_height - 5).toNat).length : Int) =
      g.window_height - 5 := by
    rw [List.length_take]
    omega
  have hsplit : g.ifinfo.infos =
      g.ifinfo.infos.take (g.window_height - 5).toNat ++
        g.ifinfo.infos.drop (g.window_height - 5).toNat :=
    (List.take_append_drop _ _).symm
  have hloop : players_loop g 0 g.ifinfo.infos =
      all_player_lines g (g.ifinfo.infos.take (g.window_height - 5).toNat) := by
    conv_lhs => rw [hsplit]
    exact players_loop_stop g _ _ 0 (by simp only [Nat.cast_zero]; omega)
  have hcond1 : ¬ (((g.ifinfo.infos_count : Nat) : Int) + 1 < g.window_height - 3) := by
    simp only [ifinfo_t.infos_count]
    omega
  have hcond2 : ¬ (((g.ifinfo.infos_count : Nat) : Int) + 1 = g.window_height - 3) := by
    simp only [ifinfo_t.infos_count]
    omega
  have hblock : leaderboard g =
      andThen (all_player_lines g (g.ifinfo.infos.take (g.window_height - 5).toNat))
        (.ok ['.', '.', '.', '\n']) := by
    simp only [leaderboard, hloop, leaderboard_rest, if_neg hcond1, if_neg hcond2]
    rfl
  refine ⟨hblock, hlen, ?_⟩
  intro hvalid
  obtain ⟨lines, hall, hout⟩ := all_player_lines_ok g _ hvalid
  refine ⟨lines, hall, ?_, ?_⟩
  · rw [hblock, hout, andThen_ok_ok]
  · have hl := List.Forall₂.length_eq hall
    omega

theorem leaderboard_truncated_witness :
    leaderboard crowded_race = .ok ['.', '.', '.', '\n'] ∧
    leaderboard
        { sample_race with
          ifinfo := { sample_race.ifinfo with
                      infos := [⟨['b', 'o', 'b'], 2⟩, ⟨['a', 'l'], 4⟩, ⟨['c'], 0⟩] },
          window_height := 6 } =
      .ok ['b', 'o', 'b', ' ', ' ', '#', '#', '#', '-', '-', '-', '-', '\n',
           '.', '.', '.', '\n'] :=
  ⟨((leaderboard_truncated crowded_race (by decide) (by decide)).1).trans (by decide),
   ((leaderboard_truncated
      { sample_race with
        ifinfo := { sample_race.ifinfo with
                    infos := [⟨['b', 'o', 'b'], 2⟩, ⟨['a', 'l'], 4⟩, ⟨['c'], 0⟩] },
        window_height := 6 }
      (by decide) (by decide)).1).trans (by decide)⟩

end XType

namespace XType

/-- C12: in the Running phase, when the own position is at most the total
text length, the part of `draw_running` that follows the leaderboard block
starts with the local player's line (identifier `"<ME>"`, the local
position, rendered by `print_player_info`, which returns normally); what
follows that line is the scroll display exactly when `position < total` and
the notice `"Finished."` exactly when `position = total`. Whenever the
leaderboard block is produced, the frame is the time line, the block, the
local line and then that display or notice. -/
theorem draw_running_own_line (g : Globals)
    (hp : g.ifinfo.position ≤ g.ifinfo.file_size) :
    ∃ bar : List Char,
      player_bar g g.ifinfo.position = .ok bar ∧
      print_player_info g ⟨"<ME>".toList, g.ifinfo.position⟩ =
        .ok (player_head g "<ME>".toList ++ bar) ∧
      (own_part g = andThen (.ok (player_head g "<ME>".toList ++ bar)) (scroll_print g) ↔
        g.ifinfo.position < g.ifinfo.file_size) ∧
      (own_part g = .ok (player_head g "<ME>".toList ++ bar ++ "Finished.\n".toList) ↔
        g.ifinfo.position = g.ifinfo.file_size) ∧
      ∀ board : List Char, leaderboard g = .ok board →
        draw_running g =
          andThen (.ok (time_line g ++ (board ++ (player_head g "<ME>".toList ++ bar))))
            (if g.ifinfo.position < g.ifinfo.file_size then scroll_print g
             else .ok "Finished.\n".toList) := by
  have hex : ∃ bar : List Char, player_bar g g.ifinfo.position = .ok bar := by
    rcases Nat.lt_or_ge g.ifinfo.position g.ifinfo.file_size with hlt | hge
    · exact ⟨_, player_bar_running g g.ifinfo.position hlt⟩
    · exact ⟨_, player_bar_complete g g.ifinfo.position (by omega)⟩
  obtain ⟨bar, hbar⟩ := hex
  have hme : print_player_info g ⟨"<ME>".toList, g.ifinfo.position⟩ =
      .ok (player_head g "<ME>".toList ++ bar) :=
    print_player_info_of_bar g ⟨"<ME>".toList, g.ifinfo.position⟩ bar hbar
  have hrun : g.ifinfo.position < g.ifinfo.file_size →
      own_part g = andThen (.ok (player_head g "<ME>".toList ++ bar)) (scroll_print g) := by
    intro hlt
    simp only [own_part, hme, if_pos hlt]
  have hfin : g.ifinfo.position = g.ifinfo.file_size →
      own_part g = .ok (player_head g "<ME>".toList ++ bar ++ "Finished.\n".toList) := by
    intro heq
    have hnlt : ¬ g.ifinfo.position < g.ifinfo.file_size := by omega
    simp only [own_part, hme, if_neg hnlt, andThen_ok_ok]
  refine ⟨bar, hbar, hme, ⟨?_, hrun⟩, ⟨?_, hfin⟩, ?_⟩
  · intro hown
    by_contra hnlt
    have heq : g.ifinfo.position = g.ifinfo.file_size := by omega
    rw [hfin heq] at hown
    exact andThen_scroll_print_ne_notice g _ hown.symm
  · intro hown
    by_contra hne
    have hlt : g.ifinfo.position < g.ifinfo.file_size := by omega
    rw [hrun hlt] at hown
    exact andThen_scroll_print_ne_notice g _ hown
  · intro board hboard
    cases hs : (if g.ifinfo.position < g.ifinfo.file_size then scroll_print g
        else .ok "Finished.\n".toList) with
    | error f => simp only [draw_running, hboard, own_part, hme, hs, andThen]
    | ok out =>
      simp only [draw_running, hboard, own_part, hme, hs, andThen, List.append_assoc]

theorem draw_running_own_line_witness :
    ∃ bar : List Char,
      player_bar sample_race sample_race.ifinfo.position = .ok bar ∧
      print_player_info sample_race ⟨"<ME>".toList, sample_race.ifinfo.position⟩ =
        .ok (player_head sample_race "<ME>".toList ++ bar) ∧
      (own_part sample_race =
          andThen (.ok (player_head sample_race "<ME>".toList ++ bar))
            (scroll_print sample_race) ↔
        sample_race.ifinfo.position < sample_race.ifinfo.file_size) ∧
      (own_part sample_race =
          .ok (player_head sample_race "<ME>".toList ++ bar ++ "Finished.\n".toList) ↔
        sample_race.ifinfo.position = sample_race.ifinfo.file_size) ∧
      ∀ board : List Char, leaderboard sample_race = .ok board →
        draw_running sample_race =
          andThen
            (.ok (time_line sample_race ++
              (board ++ (player_head sample_race "<ME>".toList ++ bar))))
            (if sample_race.ifinfo.position < sample_race.ifinfo.file_size
              then scroll_print sample_race
              else .ok "Finished.\n".toList) :=
  draw_running_own_line sample_race (by decide)

end XType

namespace XType

/-- C13: for a cursor inside the text and a width `cols` (in particular
every `cols ≥ 0`) such that neither boundary interferes
(`offset + cols/2 ≤ T` and `offset + cols/2 - cols ≥ 0`), `scroll_print`
computes
`tail = offset + cols/2` and `head = tail - cols`, so the cursor sits at
column `cols - cols/2` of the slice. -/
theorem scroll_window_centered (offset T cols : Int) (h0 : 0 ≤ offset) (hT : offset < T)
    (htail : offset + Int.tdiv cols 2 ≤ T)
    (hhead : 0 ≤ offset + Int.tdiv cols 2 - cols) :
    scroll_window offset T cols =
      (offset + Int.tdiv cols 2 - cols, offset + Int.tdiv cols 2) ∧
    offset - (scroll_window offset T cols).1 = cols - Int.tdiv cols 2 := by
  have hw : scroll_window offset T cols =
      (offset + Int.tdiv cols 2 - cols, offset + Int.tdiv cols 2) := by
    rw [scroll_window_inside offset T cols h0 hT, min_eq_left htail]
    have hnot : ¬ (offset + Int.tdiv cols 2 - cols < 0) := by omega
    rw [if_neg hnot]
  refine ⟨hw, ?_⟩
  rw [hw]
  show offset - (offset + Int.tdiv cols 2 - cols) = cols - Int.tdiv cols 2
  ring

theorem scroll_window_centered_witness :
    scroll_window 50 100 20 = (40, 60) ∧ (50 : Int) - (scroll_window 50 100 20).1 = 10 :=
  ⟨((scroll_window_centered 50 100 20 (by decide) (by decide) (by decide)
      (by decide)).1).trans (by decide),
   ((scroll_window_centered 50 100 20 (by decide) (by decide) (by decide)
      (by decide)).2).trans (by decide)⟩

/-- C14: for a cursor inside the text, when the tentative head
`min (offset + cols/2) T - cols` is negative, `scroll_print` returns
`head = 0` and `tail = min cols T`; the cursor sits at column `offset` of
the slice, inside the window. -/
theorem scroll_window_at_start (offset T cols : Int) (h0 : 0 ≤ offset) (hT : offset < T)
    (hneg : min (offset + Int.tdiv cols 2) T - cols < 0) :
    scroll_window offset T cols = (0, min cols T) ∧
    offset - (scroll_window offset T cols).1 = offset ∧
    offset < (scroll_window offset T cols).2 := by
  have hw : scroll_window offset T cols = (0, min cols T) := by
    rw [scroll_window_inside offset T cols h0 hT, if_pos hneg]
    have hshift : min (offset + Int.tdiv cols 2) T +
        -(min (offset + Int.tdiv cols 2) T - cols) = cols := by ring
    rw [hshift]
  have hpos : 0 < cols := by
    by_contra hle
    rcases lt_or_le cols 0 with hlt | hge
    · have hb := half_width_neg cols hlt
      omega
    · have hz : cols = 0 := by omega
      rw [hz] at hneg
      have hd : Int.tdiv 0 2 = 0 := by decide
      rw [hd] at hneg
      omega
  have hb := half_width_bounds cols (le_of_lt hpos)
  refine ⟨hw, ?_, ?_⟩
  · rw [hw]
    show offset - 0 = offset
    ring
  · rw [hw]
    show offset < min cols T
    omega

theorem scroll_window_at_start_witness :
    scroll_window 5 100 20 = (0, 20) ∧ (5 : Int) - (scroll_window 5 100 20).1 = 5 ∧
    (5 : Int) < (scroll_window 5 100 20).2 :=
  ⟨((scroll_window_at_start 5 100 20 (by decide) (by decide) (by decide)).1).trans (by decide),
   (scroll_window_at_start 5 100 20 (by decide) (by decide) (by decide)).2.1,
   (scroll_window_at_start 5 100 20 (by decide) (by decide) (by decide)).2.2⟩

/-- C15: for a cursor inside the text and a width `cols ≥ 0`, the window of
`scroll_print` has `tail - head = min cols T`: it is as wide as the terminal,
or as long as the whole text when the text is shorter. -/
theorem scroll_window_full_width (offset T cols : Int) (h0 : 0 ≤ offset) (hT : offset < T)
    (hc : 0 ≤ cols) :
    (scroll_window offset T cols).2 - (scroll_window offset T cols).1 = min cols T := by
  rw [scroll_window_inside offset T cols h0 hT]
  have hb := half_width_bounds cols hc
  split_ifs with hneg <;> simp only <;> omega

theorem scroll_window_full_width_witness :
    (scroll_window 95 100 20).2 - (scroll_window 95 100 20).1 = min 20 100 :=
  scroll_window_full_width 95 100 20 (by decide) (by decide) (by decide)

end XType

namespace XType

/-- C16: in the Waiting phase, whatever the geometry and the player list, the
output of `draw` is the clear-screen sequence `ESC[2J ESC[H ESC[3J` followed
by the three lines `[Ready]`, `Press C to cancel.`, `Press Q to quit.` when
the own-ready flag is set, and `[Not Ready]`, `Press R to get ready.`,
`Press Q to quit.` when it is not; nothing else is written. -/
theorem draw_waiting (g : Globals) (hphase : g.ifinfo.game_state = .WAITING) :
    clear_screen =
      [Char.ofNat 27, '[', '2', 'J', Char.ofNat 27, '[', 'H', Char.ofNat 27, '[', '3', 'J'] ∧
    (g.ifinfo.me_ready = true →
      draw g =
        .ok (clear_screen ++ "[Ready]\nPress C to cancel.\nPress Q to quit.\n".toList)) ∧
    (g.ifinfo.me_ready = false →
      draw g =
        .ok (clear_screen ++
          "[Not Ready]\nPress R to get ready.\nPress Q to quit.\n".toList)) := by
  refine ⟨rfl, ?_, ?_⟩
  · intro hready
    simp only [draw, hphase, hready, if_true, andThen_ok_ok]
    rfl
  · intro hready
    simp only [draw, hphase, hready, andThen_ok_ok]
    rfl

theorem draw_waiting_witness :
    draw waiting_ready =
      .ok (clear_screen ++ "[Ready]\nPress C to cancel.\nPress Q to quit.\n".toList) ∧
    draw waiting_not_ready =
      .ok (clear_screen ++ "[Not Ready]\nPress R to get ready.\nPress Q to quit.\n".toList) :=
  ⟨(draw_waiting waiting_ready rfl).2.1 rfl, (draw_waiting waiting_not_ready rfl).2.2 rfl⟩

/-- C19, the claim refuted at a concrete input: after `2^31 * 3600` seconds
the hours no longer fit the `int` variable of line 106 and the time line
shows a negative number of hours. -/
theorem time_line_hours_overflow :
    long_race.ifinfo.duration = 2147483648 * 3600 ∧
    time_line long_race =
      ['-', '2', '1', '4', '7', '4', '8', '3', '6', '4', '8', ':', '0', '0', ':', '0', '0',
       '\n'] := by
  refine ⟨by decide, by decide⟩

/-- C19 as amended: for an elapsed duration of `d` seconds whose hours
`d / 60 / 60` are below `2^31` (they fit the `int` variable of line 106) the
time line of `draw_running` is `H:MM:SS` followed by a newline, where `H` is
the decimal writing of `h = d / 60 / 60`, `MM` the two digits of
`m = d / 60 % 60` and `SS` the two digits of `s = d % 60`, with `m < 60`,
`s < 60` and `3600 * h + 60 * m + s = d`. -/
theorem time_line_format (g : Globals)
    (hfit : g.ifinfo.duration / 60 / 60 < 2147483648) :
    time_line g =
      Nat.toDigits 10 (g.ifinfo.duration / 60 / 60) ++ [':'] ++
        [Nat.digitChar (g.ifinfo.duration / 60 % 60 / 10),
         Nat.digitChar (g.ifinfo.duration / 60 % 60 % 10)] ++ [':'] ++
        [Nat.digitChar (g.ifinfo.duration % 60 / 10),
         Nat.digitChar (g.ifinfo.duration % 60 % 10)] ++ ['\n'] ∧
    g.ifinfo.duration / 60 % 60 < 60 ∧
    g.ifinfo.duration % 60 < 60 ∧
    3600 * (g.ifinfo.duration / 60 / 60) + 60 * (g.ifinfo.duration / 60 % 60) +
      g.ifinfo.duration % 60 = g.ifinfo.duration := by
  have hs : Int.tmod (g.ifinfo.duration : Int) 60 = ((g.ifinfo.duration % 60 : Nat) : Int) :=
    tmod_natCast g.ifinfo.duration 60
  have hq : Int.tdiv (g.ifinfo.duration : Int) 60 = ((g.ifinfo.duration / 60 : Nat) : Int) :=
    tdiv_natCast g.ifinfo.duration 60
  have hm : Int.tmod (((g.ifinfo.duration / 60 : Nat) : Int)) 60 =
      ((g.ifinfo.duration / 60 % 60 : Nat) : Int) :=
    tmod_natCast (g.ifinfo.duration / 60) 60
  have hh : Int.tdiv (((g.ifinfo.duration / 60 : Nat) : Int)) 60 =
      ((g.ifinfo.duration / 60 / 60 : Nat) : Int) :=
    tdiv_natCast (g.ifinfo.duration / 60) 60
  have hm60 : g.ifinfo.duration / 60 % 60 < 60 := Nat.mod_lt _ (by decide)
  have hs60 : g.ifinfo.duration % 60 < 60 := Nat.mod_lt _ (by decide)
  have his : to_int ((g.ifinfo.duration % 60 : Nat) : Int) =
      ((g.ifinfo.duration % 60 : Nat) : Int) := to_int_of_range _ (by omega) (by omega)
  have him : to_int ((g.ifinfo.duration / 60 % 60 : Nat) : Int) =
      ((g.ifinfo.duration / 60 % 60 : Nat) : Int) := to_int_of_range _ (by omega) (by omega)
  have hih : to_int ((g.ifinfo.duration / 60 / 60 : Nat) : Int) =
      ((g.ifinfo.duration / 60 / 60 : Nat) : Int) := to_int_of_range _ (by omega) (by omega)
  refine ⟨?_, hm60, hs60, by omega⟩
  simp only [time_line, hs, hq, hm, hh, his, him, hih, printf_d_natCast,
    printf_02d_two_digits _ hm60, printf_02d_two_digits _ hs60]

theorem time_line_format_witness :
    time_line sample_race = ['1', ':', '0', '2', ':', '0', '5', '\n'] :=
  ((time_line_format sample_race (by decide)).1).trans (by decide)

/-- C20, evaluated at the failing input: with no other player
(`infos_count = 0`) on a terminal of 4 rows, the test
`infos_count + 1 == window_height - 3` holds and `draw_running` reads
`infos[infos_count - 1]`, that is `infos[-1]`, an entry that does not
exist. -/
theorem leaderboard_reads_before_array :
    lonely_race.ifinfo.infos_count = 0 ∧
    lonely_race.window_height = 4 ∧
    infos_at lonely_race.ifinfo ((lonely_race.ifinfo.infos_count : Int) - 1) =
      .error Fault.outOfBounds ∧
    leaderboard lonely_race = .error Fault.outOfBounds ∧
    draw_running lonely_race = .error Fault.outOfBounds ∧
    draw lonely_race = .error Fault.outOfBounds := by
  refine ⟨by decide, by decide, by decide, by decide, by decide, by decide⟩

end XType

namespace XType

/-- C18: the scroll display written by `scroll_print` is the text slice
`text_buffer[head..tail)` (`tail - head` bytes), a newline, then a marker
line of exactly `tail - head` characters whose character at column `k` is
`'|'` when `head + k = offset` and a space otherwise; a window that contains
the cursor therefore shows exactly one `'|'`, at column `offset - head`. The
display is produced whenever the assertion of line 84 holds, in particular
when the cursor is outside the text or the terminal has at least two
columns (the buffer is assumed to hold the `text_size` bytes of the text). -/
theorem scroll_display_format (g : Globals)
    (hbuf : g.ifinfo.text_size ≤ g.ifinfo.text_buffer.length) :
    (marker_line (cursor_offset g)
        (scroll_window (cursor_offset g) g.ifinfo.text_size g.window_width).1
        (scroll_window (cursor_offset g) g.ifinfo.text_size g.window_width).2).length =
      ((scroll_window (cursor_offset g) g.ifinfo.text_size g.window_width).2 -
        (scroll_window (cursor_offset g) g.ifinfo.text_size g.window_width).1).toNat ∧
    ((g.ifinfo.text_buffer.drop
          (scroll_window (cursor_offset g) g.ifinfo.text_size g.window_width).1.toNat).take
        ((scroll_window (cursor_offset g) g.ifinfo.text_size g.window_width).2 -
          (scroll_window (cursor_offset g) g.ifinfo.text_size g.window_width).1).toNat).length =
      ((scroll_window (cursor_offset g) g.ifinfo.text_size g.window_width).2 -
        (scroll_window (cursor_offset g) g.ifinfo.text_size g.window_width).1).toNat ∧
    (∀ k : Nat,
      k < ((scroll_window (cursor_offset g) g.ifinfo.text_size g.window_width).2 -
            (scroll_window (cursor_offset g) g.ifinfo.text_size g.window_width).1).toNat →
      (marker_line (cursor_offset g)
          (scroll_window (cursor_offset g) g.ifinfo.text_size g.window_width).1
          (scroll_window (cursor_offset g) g.ifinfo.text_size g.window_width).2)[k]? =
        some (if (scroll_window (cursor_offset g) g.ifinfo.text_size g.window_width).1 +
                (k : Int) = cursor_offset g then '|' else ' ')) ∧
    ((scroll_window (cursor_offset g) g.ifinfo.text_size g.window_width).1 ≤ cursor_offset g →
      cursor_offset g < (scroll_window (cursor_offset g) g.ifinfo.text_size g.window_width).2 →
      (marker_line (cursor_offset g)
          (scroll_window (cursor_offset g) g.ifinfo.text_size g.window_width).1
          (scroll_window (cursor_offset g) g.ifinfo.text_size g.window_width).2).count '|' =
        1) ∧
    (scroll_assert (cursor_offset g)
        (scroll_window (cursor_offset g) g.ifinfo.text_size g.window_width).1
        (scroll_window (cursor_offset g) g.ifinfo.text_size g.window_width).2 = true →
      scroll_print g =
        .ok ((g.ifinfo.text_buffer.drop
                (scroll_window (cursor_offset g) g.ifinfo.text_size g.window_width).1.toNat).take
              ((scroll_window (cursor_offset g) g.ifinfo.text_size g.window_width).2 -
                (scroll_window (cursor_offset g) g.ifinfo.text_size
                  g.window_width).1).toNat ++
            ['\n'] ++
            marker_line (cursor_offset g)
              (scroll_window (cursor_offset g) g.ifinfo.text_size g.window_width).1
              (scroll_window (cursor_offset g) g.ifinfo.text_size g.window_width).2)) ∧
    ((cursor_offset g < 0 ∨ (g.ifinfo.text_size : Int) ≤ cursor_offset g ∨
        2 ≤ g.window_width) →
      scroll_print g =
        .ok ((g.ifinfo.text_buffer.drop
                (scroll_window (cursor_offset g) g.ifinfo.text_size g.window_width).1.toNat).take
              ((scroll_window (cursor_offset g) g.ifinfo.text_size g.window_width).2 -
                (scroll_window (cursor_offset g) g.ifinfo.text_size
                  g.window_width).1).toNat ++
            ['\n'] ++
            marker_line (cursor_offset g)
              (scroll_window (cursor_offset g) g.ifinfo.text_size g.window_width).1
              (scroll_window (cursor_offset g) g.ifinfo.text_size g.window_width).2)) := by
  have hbuf' : (g.ifinfo.text_size : Int) ≤ (g.ifinfo.text_buffer.length : Int) := by
    exact_mod_cast hbuf
  have hslice := text_slice_window g.ifinfo.text_buffer (cursor_offset g)
    g.ifinfo.text_size g.window_width hbuf'
  have hprint : scroll_assert (cursor_offset g)
        (scroll_window (cursor_offset g) g.ifinfo.text_size g.window_width).1
        (scroll_window (cursor_offset g) g.ifinfo.text_size g.window_width).2 = true →
      scroll_print g =
        .ok ((g.ifinfo.text_buffer.drop
                (scroll_window (cursor_offset g) g.ifinfo.text_size g.window_width).1.toNat).take
              ((scroll_window (cursor_offset g) g.ifinfo.text_size g.window_width).2 -
                (scroll_window (cursor_offset g) g.ifinfo.text_size
                  g.window_width).1).toNat ++
            ['\n'] ++
            marker_line (cursor_offset g)
              (scroll_window (cursor_offset g) g.ifinfo.text_size g.window_width).1
              (scroll_window (cursor_offset g) g.ifinfo.text_size g.window_width).2) := by
    intro hassert
    simp only [scroll_print, hassert, if_true, hslice.1]
  refine ⟨marker_line_length _ _ _, hslice.2, ?_, ?_, hprint, ?_⟩
  · intro k hk
    exact marker_line_getElem? _ _ _ k hk
  · intro hle hlt
    exact marker_line_one_mark _ _ _ hle hlt
  · intro hcase
    exact hprint (scroll_assert_holds _ _ _ hcase)

theorem scroll_display_format_witness :
    scroll_print sample_race = .ok ['a', 'b', 'c', 'd', '\n', ' ', '|', ' ', ' '] :=
  ((scroll_display_format sample_race (by decide)).2.2.2.2.2
      (Or.inr (Or.inr (by decide)))).trans (by decide)

end XType
